import Mathlib

/-!
Verification of the context-assembly and memory-management core of the
osint-chatbot backend (`src/app.py`, final `chat` variant, plus the earlier
text-only variant `src/server.py`).

The embedding models:
- the attachment codec (`base64.b64encode` / `base64.b64decode` over byte
  lists, with CPython's discarding of non-alphabet characters and its
  padding-length check on decode);
- the message / session / profile stores as in-memory lists mirroring the
  SQL tables;
- the history window query (`ORDER BY id DESC LIMIT n` then Python `[::-1]`);
- the per-turn `chat` handler as a pure function over an environment that
  fixes the outcomes of the external collaborators (model provider calls,
  store write failures, PIL image normalization);
- the background `update_long_term_memory` refiner.
-/

namespace OsintChat

/-- One entry of the `contents` list sent to the model provider: either a text
part (`types.Part.from_text`) or a bytes part with a mime type
(`types.Part.from_bytes`). -/
inductive Part where
  | text : String → Part
  | bytes : List Nat → String → Part
deriving Repr, DecidableEq

/-- A role-tagged content item (`types.Content(role=..., parts=...)`). -/
structure Content where
  role : String
  parts : List Part
deriving Repr, DecidableEq

/-- A row of the `messages` table: id (SERIAL PRIMARY KEY), owning session,
sender, content text, has_image flag and the durable base64 image text. -/
structure Message where
  id : Nat
  session_id : Nat
  sender : String
  content : String
  has_image : Bool
  image_data : Option String
deriving Repr, DecidableEq

/-- A row of the `sessions` table. -/
structure Session where
  id : Nat
  user_id : String
  title : String
deriving Repr, DecidableEq

/-- The durable store: the three tables of `init_db`, plus the next SERIAL
value for `messages.id`. `user_profiles` rows are (user_id, profile_data). -/
structure Db where
  sessions : List Session
  messages : List Message
  profiles : List (String × String)
  nextMessageId : Nat
deriving Repr, DecidableEq

/-! ## Attachment codec (base64, as used via `base64.b64encode` and
`base64.b64decode`) -/

/-- The standard base64 alphabet. -/
def b64Alphabet : List Char :=
  ("ABCDEFGHIJKLMNOPQRSTUVWXYZabcdefghijklmnopqrstuvwxyz0123456789+/").data

/-- Encode one sextet (a value `< 64`) as its base64 character. -/
def encSextet (n : Nat) : Char := b64Alphabet.getD n 'A'

/-- Decode one base64 character back to its sextet (index in the alphabet). -/
def decSextet (c : Char) : Nat := b64Alphabet.indexOf c

/-- `base64.b64encode`: groups of three bytes become four alphabet characters;
a trailing group of one or two bytes is padded with `=`. -/
def b64encode : List Nat → List Char
  | [] => []
  | [a] => [encSextet (a / 4), encSextet (a % 4 * 16), '=', '=']
  | [a, b] => [encSextet (a / 4), encSextet (a % 4 * 16 + b / 16),
               encSextet (b % 16 * 4), '=']
  | a :: b :: c :: rest =>
      encSextet (a / 4) :: encSextet (a % 4 * 16 + b / 16) ::
      encSextet (b % 16 * 4 + c / 64) :: encSextet (c % 64) ::
      b64encode rest

/-- Raw base64 decoding of a char list whose length is a multiple of four:
each four-character group yields three bytes, or fewer when `=`-padded. -/
def b64decodeRaw : List Char → List Nat
  | c1 :: c2 :: c3 :: c4 :: rest =>
      if c3 = '=' then [decSextet c1 * 4 + decSextet c2 / 16]
      else if c4 = '=' then
        [decSextet c1 * 4 + decSextet c2 / 16,
         decSextet c2 % 16 * 16 + decSextet c3 / 4]
      else
        (decSextet c1 * 4 + decSextet c2 / 16) ::
        (decSextet c2 % 16 * 16 + decSextet c3 / 4) ::
        (decSextet c3 % 4 * 64 + decSextet c4) ::
        b64decodeRaw rest
  | _ => []

/-- `base64.b64decode`: characters outside the alphabet (other than `=`) are
discarded; if the remaining length is not a multiple of four the call raises
`binascii.Error` (modelled as `none`), otherwise the groups are decoded. -/
def b64decode (s : List Char) : Option (List Nat) :=
  let t := s.filter (fun c => b64Alphabet.contains c || c == '=')
  if t.length % 4 = 0 then some (b64decodeRaw t) else none

/-! ## Message store: the history window query

`SELECT sender, content, has_image, image_data FROM messages WHERE
session_id = %s ORDER BY id DESC LIMIT 5` followed by the Python reversal
`[::-1]`. Sorting by descending id is modelled by insertion sort, which
matches any SQL ordering on rows whose ids are distinct (`id` is the
primary key). -/

/-- Insert a message into a list kept in descending id order. -/
def insertDesc (m : Message) : List Message → List Message
  | [] => [m]
  | x :: xs => if x.id ≤ m.id then m :: x :: xs else x :: insertDesc m xs

/-- Sort messages by descending id (`ORDER BY id DESC`). -/
def sortDesc : List Message → List Message
  | [] => []
  | m :: ms => insertDesc m (sortDesc ms)

/-- The history window: filter the session's rows, order by descending id,
keep the first `limit`, then reverse back to chronological order. -/
def recentWindow (session_id limit : Nat) (msgs : List Message) : List Message :=
  (((sortDesc (msgs.filter (fun m => m.session_id = session_id))).take limit).reverse)

/-! ## Profile store -/

/-- `get_long_term_memory`: the owner's dossier text, with the sentinel
default when no row exists. -/
def get_long_term_memory (db : Db) (user_id : String) : String :=
  match db.profiles.find? (fun p => p.1 = user_id) with
  | some p => p.2
  | none => "No prior information."

/-- `INSERT ... ON CONFLICT (user_id) DO UPDATE SET profile_data = ...`:
replace the row when the key exists, append otherwise. -/
def upsertProfile (ps : List (String × String)) (u v : String) :
    List (String × String) :=
  if ps.any (fun p => p.1 = u) then ps.map (fun p => if p.1 = u then (u, v) else p)
  else ps ++ [(u, v)]

/-! ## Context assembly from history rows -/

/-- Role tagging of a history row: `"user" if sender == "user" else "model"`. -/
def roleOf (sender : String) : String := if sender = "user" then "user" else "model"

/-- The text part of a history row (`if msg: parts.append(.from_text(msg))`;
an empty or NULL content contributes nothing). -/
def msgTextParts (m : Message) : List Part :=
  if m.content = "" then [] else [Part.text m.content]

/-- The attachment part of a history row. `if has_img and img_data:` guards a
`try` block that decodes only when `len(img_data) > 100`; a decode failure is
caught and the attachment is skipped. -/
def msgImgParts (m : Message) : List Part :=
  match m.image_data with
  | none => []
  | some s =>
    if m.has_image && !(s == "") then
      if s.length > 100 then
        match b64decode s.data with
        | some bs => [Part.bytes bs "image/jpeg"]
        | none => []
      else []
    else []

/-- Context assembly over the history window: one `Content` per row that has
at least one part (`if parts: contents.append(...)`). -/
def historyContents : List Message → List Content
  | [] => []
  | m :: rest =>
    let parts := msgTextParts m ++ msgImgParts m
    (if parts = [] then [] else [⟨roleOf m.sender, parts⟩]) ++ historyContents rest

/-! ## The per-turn chat handler -/

/-- Outcomes of the external collaborators during one request, fixed up
front: the three `generate_content` calls (main reply, title, profile
refinement) each succeed with a text or raise, and the store writes may
raise. -/
structure Env where
  genResult : Except String String
  titleResult : Except String String
  refineResult : Except String String
  insertFails : Bool
  refineUpsertFails : Bool
deriving Repr

/-- What the route returns: 401, the JSON reply, an explicit 400 rejection
(only in the `src/server.py` variant), or the catch-all 500. -/
inductive ChatOutcome where
  | unauthorized
  | reply : String → ChatOutcome
  | badRequest : String → ChatOutcome
  | serverError : String → ChatOutcome
deriving Repr, DecidableEq

/-- The observable effect of one `/chat` request: the HTTP-level outcome, the
store after the request, the `contents` assembled for the main model call,
how many synchronous `generate_content` calls were made, and whether the
background profile-refinement thread was started. -/
structure ChatResult where
  response : ChatOutcome
  db : Db
  request : List Content
  modelCalls : Nat
  refineLaunched : Bool
deriving Repr, DecidableEq

/-- PIL normalization of the uploaded file: absent, or failing to open as an
image (caught: the turn continues without the image), or the re-encoded JPEG
bytes, kept only when non-empty. -/
def normalizeImage : Option (Except String (List Nat)) → Option (List Nat)
  | none => none
  | some (.error _) => none
  | some (.ok bs) => if bs.length > 0 then some bs else none

/-- The durable encoding of the current turn's image
(`base64.b64encode(image_bytes).decode('utf-8')`), when one was accepted. -/
def currentImageB64 (image_file : Option (Except String (List Nat))) :
    Option String :=
  (normalizeImage image_file).map (fun bs => String.mk (b64encode bs))

/-- The parts of the current turn: the raw text when non-empty
(`if user_text:`), then the normalized image when one was accepted. -/
def currentParts (user_text : String)
    (image_file : Option (Except String (List Nat))) : List Part :=
  (if user_text = "" then [] else [Part.text user_text]) ++
  (match normalizeImage image_file with
   | some bs => [Part.bytes bs "image/jpeg"]
   | none => [])

/-- The current turn as a content item, appended only when it has at least
one part (`if current_parts: contents.append(...)`). -/
def currentContent (user_text : String)
    (image_file : Option (Except String (List Nat))) : List Content :=
  if currentParts user_text image_file = [] then []
  else [⟨"user", currentParts user_text image_file⟩]

/-- The system instruction, with the dossier interpolated
(`USER DOSSIER: {user_profile}` inside the fixed prompt). -/
def systemInstructionFor (user_profile : String) : String :=
  "You are 'OSINT-MIND', a senior cyber-intelligence analyst.\nUSER DOSSIER: "
    ++ user_profile ++ "\nINSTRUCTIONS: ..."

set_option linter.unusedVariables false in
/-- The `/chat` handler of `src/app.py` as a pure function. `authUser` is the
result of `verify_user` (None yields 401); `session_id` and `user_text` come
from the form; `image_file` is the optional upload as seen through PIL.
The body mirrors the source: fetch the 5-message history window, assemble
history contents, append the current parts (raw text, then the normalized
image when non-empty), call the model, insert the user/bot message pair and
commit, start the refinement thread only when `user_text` is truthy, and on a
first exchange attempt a title generation whose failure is swallowed. Any
uncaught exception (provider error, store write failure) reaches the
route-level handler and becomes a 500 with no commit. -/
def chat (env : Env) (db : Db) (authUser : Option String) (session_id : Nat)
    (user_text : String) (image_file : Option (Except String (List Nat))) :
    ChatResult :=
  match authUser with
  | none => ⟨.unauthorized, db, [], 0, false⟩
  | some user_id =>
    let history := recentWindow session_id 5 db.messages
    let user_profile := get_long_term_memory db user_id
    let system_instruction := systemInstructionFor user_profile
    let image_b64 := currentImageB64 image_file
    let contents := historyContents history ++ currentContent user_text image_file
    match env.genResult with
    | .error e => ⟨.serverError e, db, contents, 1, false⟩
    | .ok ai_reply =>
      if env.insertFails then ⟨.serverError "db error", db, contents, 1, false⟩
      else
        let userMsg : Message :=
          ⟨db.nextMessageId, session_id, "user", user_text, image_b64.isSome, image_b64⟩
        let botMsg : Message :=
          ⟨db.nextMessageId + 1, session_id, "bot", ai_reply, false, none⟩
        let db1 : Db :=
          { db with messages := db.messages ++ [userMsg, botMsg],
                    nextMessageId := db.nextMessageId + 2 }
        let launched := user_text != ""
        let titled : Db × Nat :=
          if history.length = 0 then
            match env.titleResult with
            | .ok t =>
              let title := (t.trim).replace "\"" ""
              let retitle : Session → Session :=
                fun s => if s.id = session_id then { s with title := title } else s
              ({ db1 with sessions := db1.sessions.map retitle }, 2)
            | .error _ => (db1, 2)
          else (db1, 1)
        ⟨.reply ai_reply, titled.1, contents, titled.2, launched⟩

/-! ## The background profile refiner -/

set_option linter.unusedVariables false in
/-- The body of `update_long_term_memory` up to its `try`: read the dossier,
build the refinement prompt, call the model, then upsert; the first failure
aborts the attempt. -/
def refineAttempt (env : Env) (db : Db) (user_id last_message last_reply : String) :
    Except String Db :=
  let current_memory := get_long_term_memory db user_id
  let update_prompt :=
    "User Dossier: " ++ current_memory ++ "\nLatest Interaction:\nUser: "
      ++ last_message ++ "\nAI: " ++ last_reply
      ++ "\nTask: Update the dossier with new consistent facts or preferences. Keep it concise."
  match env.refineResult with
  | .error e => .error e
  | .ok t =>
    let new_memory := t.trim
    if env.refineUpsertFails then .error "db error"
    else .ok { db with profiles := upsertProfile db.profiles user_id new_memory }

/-- `update_long_term_memory`: the whole body is wrapped in
`try: ... except: pass`, so a failed attempt leaves the store untouched and
raises nothing. -/
def update_long_term_memory (env : Env) (db : Db)
    (user_id last_message last_reply : String) : Db :=
  match refineAttempt env db user_id last_message last_reply with
  | .ok db2 => db2
  | .error _ => db

/-! ## The earlier text-only variant (`src/server.py`) -/

/-- Outcome of the `src/server.py` chat endpoint: response plus how many
model calls were made. -/
structure ServerChatResult where
  response : ChatOutcome
  modelCalls : Nat
deriving Repr, DecidableEq

/-- The `/chat` handler of `src/server.py`: a missing or empty message is
rejected with a 400 before the model is called; otherwise one
`generate_content` call produces the reply or the catch-all 500. -/
def serverChat (genResult : Except String String) (user_input : Option String) :
    ServerChatResult :=
  if user_input.getD "" = "" then ⟨.badRequest "No message provided", 0⟩
  else
    match genResult with
    | .ok t => ⟨.reply t, 1⟩
    | .error e => ⟨.serverError e, 1⟩

/-! ## Helper for stating attachment-drop theorems -/

/-- The content a history row contributes when its attachment is dropped:
just its text part (or nothing when the text is empty). -/
def textOnlyContent (m : Message) : List Content :=
  if m.content = "" then [] else [⟨roleOf m.sender, [Part.text m.content]⟩]

/-! ## Concrete fixtures used by closed theorems and witnesses -/

/-- A session owned by `alice`. -/
def aliceSession : Session := ⟨1, "alice", "T"⟩

/-- A prior user message in `alice`'s session. -/
def histUser : Message := ⟨1, 1, "user", "hello", false, none⟩

/-- A prior reply in `alice`'s session. -/
def histBot : Message := ⟨2, 1, "bot", "hi there", false, none⟩

/-- A store holding `alice`'s session with one prior exchange. -/
def dbAlice : Db := ⟨[aliceSession], [histUser, histBot], [], 3⟩

/-- An environment where every collaborator succeeds. -/
def envOk : Env := ⟨.ok "REPLY", .ok "Nice Title", .ok "dossier", false, false⟩

/-- An environment where the message-pair insert raises. -/
def envInsertFails : Env := ⟨.ok "REPLY", .ok "Nice Title", .ok "dossier", true, false⟩

/-- A history row carrying a well-formed durable attachment longer than 100
characters (78 bytes encode to 104 base64 characters). -/
def goodImg : Message := ⟨9, 1, "user", "pic", true, some (String.mk (b64encode (List.replicate 78 7)))⟩

/-- A history row whose stored attachment text is malformed: `"A"` has length
1 after filtering, not a multiple of 4, so `b64decode` raises. -/
def badImg : Message := ⟨10, 1, "user", "look", true, some "A"⟩

/-- A history row whose stored attachment decodes fine but is at most 100
characters long. -/
def shortImg : Message := ⟨11, 1, "user", "tiny", true, some "QUJD"⟩

/-! ## Ordering lemmas for the history window -/

theorem mem_insertDesc {m x : Message} {l : List Message} :
    x ∈ insertDesc m l ↔ x = m ∨ x ∈ l := by
  induction l with
  | nil => simp [insertDesc]
  | cons y ys ih =>
    simp only [insertDesc]
    split
    · simp [or_comm, or_assoc, or_left_comm]
    · simp [ih]
      tauto

theorem perm_insertDesc (m : Message) (l : List Message) :
    List.Perm (insertDesc m l) (m :: l) := by
  induction l with
  | nil => rfl
  | cons x xs ih =>
    simp only [insertDesc]
    split
    · rfl
    · exact (ih.cons x).trans (List.Perm.swap m x xs)

theorem perm_sortDesc (l : List Message) : List.Perm (sortDesc l) l := by
  induction l with
  | nil => rfl
  | cons m ms ih => exact (perm_insertDesc m (sortDesc ms)).trans (ih.cons m)

theorem pairwise_insertDesc {m : Message} {l : List Message}
    (h : l.Pairwise (fun a b => b.id ≤ a.id)) :
    (insertDesc m l).Pairwise (fun a b => b.id ≤ a.id) := by
  induction l with
  | nil => simp [insertDesc]
  | cons y ys ih =>
    rw [List.pairwise_cons] at h
    simp only [insertDesc]
    split
    · rename_i hle
      rw [List.pairwise_cons]
      refine ⟨?_, List.pairwise_cons.mpr h⟩
      intro b hb
      rcases List.mem_cons.mp hb with rfl | hb
      · exact hle
      · exact le_trans (h.1 b hb) hle
    · rename_i hgt
      rw [List.pairwise_cons]
      refine ⟨?_, ih h.2⟩
      intro b hb
      rcases mem_insertDesc.mp hb with rfl | hb
      · omega
      · exact h.1 b hb

theorem pairwise_sortDesc (l : List Message) :
    (sortDesc l).Pairwise (fun a b => b.id ≤ a.id) := by
  induction l with
  | nil => simp [sortDesc]
  | cons m ms ih => exact pairwise_insertDesc ih

/-! ## Codec lemmas -/

theorem decSextet_encSextet_fin :
    ∀ n : Fin 64, decSextet (encSextet n.val) = n.val := by decide

theorem encSextet_ne_pad_fin : ∀ n : Fin 64, encSextet n.val ≠ '=' := by decide

theorem encSextet_mem_fin :
    ∀ n : Fin 64, b64Alphabet.contains (encSextet n.val) = true := by decide

theorem decSextet_encSextet {n : Nat} (h : n < 64) :
    decSextet (encSextet n) = n := decSextet_encSextet_fin ⟨n, h⟩

theorem encSextet_ne_pad {n : Nat} (h : n < 64) : encSextet n ≠ '=' :=
  encSextet_ne_pad_fin ⟨n, h⟩

theorem encSextet_kept {n : Nat} (h : n < 64) :
    (b64Alphabet.contains (encSextet n) || encSextet n == '=') = true := by
  rw [encSextet_mem_fin ⟨n, h⟩]; rfl

theorem b64encode_all_kept {bs : List Nat} (hb : ∀ x ∈ bs, x < 256) :
    ∀ c ∈ b64encode bs, (b64Alphabet.contains c || c == '=') = true := by
  induction bs using b64encode.induct with
  | case1 => intro c hc; simp [b64encode] at hc
  | case2 a =>
    intro c hc
    have ha : a < 256 := hb a (by simp)
    simp only [b64encode, List.mem_cons, List.not_mem_nil, or_false] at hc
    rcases hc with rfl | rfl | rfl | rfl
    · exact encSextet_kept (by omega)
    · exact encSextet_kept (by omega)
    · rfl
    · rfl
  | case3 a b =>
    intro c hc
    have ha : a < 256 := hb a (by simp)
    have hbb : b < 256 := hb b (by simp)
    simp only [b64encode, List.mem_cons, List.not_mem_nil, or_false] at hc
    rcases hc with rfl | rfl | rfl | rfl
    · exact encSextet_kept (by omega)
    · exact encSextet_kept (by omega)
    · exact encSextet_kept (by omega)
    · rfl
  | case4 a b cc rest ih =>
    intro c hc
    have ha : a < 256 := hb a (by simp)
    have hbb : b < 256 := hb b (by simp)
    have hcc : cc < 256 := hb cc (by simp)
    simp only [b64encode, List.mem_cons] at hc
    rcases hc with rfl | rfl | rfl | rfl | hc
    · exact encSextet_kept (by omega)
    · exact encSextet_kept (by omega)
    · exact encSextet_kept (by omega)
    · exact encSextet_kept (by omega)
    · exact ih (fun x hx => hb x (by simp [hx])) c hc

theorem b64encode_length_mod (bs : List Nat) : (b64encode bs).length % 4 = 0 := by
  induction bs using b64encode.induct with
  | case1 => simp [b64encode]
  | case2 a => simp [b64encode]
  | case3 a b => simp [b64encode]
  | case4 a b c rest ih =>
    simp only [b64encode, List.length_cons]
    omega

theorem b64decodeRaw_b64encode {bs : List Nat} (hb : ∀ x ∈ bs, x < 256) :
    b64decodeRaw (b64encode bs) = bs := by
  induction bs using b64encode.induct with
  | case1 => rfl
  | case2 a =>
    have ha : a < 256 := hb a (by simp)
    simp only [b64encode, b64decodeRaw, reduceIte]
    rw [decSextet_encSextet (by omega), decSextet_encSextet (by omega)]
    simp only [List.cons.injEq, and_true]
    omega
  | case3 a b =>
    have ha : a < 256 := hb a (by simp)
    have hbb : b < 256 := hb b (by simp)
    simp only [b64encode, b64decodeRaw]
    rw [if_neg (encSextet_ne_pad (by omega))]
    simp only [reduceIte]
    rw [decSextet_encSextet (by omega), decSextet_encSextet (by omega),
        decSextet_encSextet (by omega)]
    simp only [List.cons.injEq, and_true]
    omega
  | case4 a b c rest ih =>
    have ha : a < 256 := hb a (by simp)
    have hbb : b < 256 := hb b (by simp)
    have hcc : c < 256 := hb c (by simp)
    simp only [b64encode, b64decodeRaw]
    rw [if_neg (encSextet_ne_pad (by omega)), if_neg (encSextet_ne_pad (by omega))]
    rw [decSextet_encSextet (by omega), decSextet_encSextet (by omega),
        decSextet_encSextet (by omega), decSextet_encSextet (by omega),
        ih (fun x hx => hb x (by simp [hx]))]
    simp only [List.cons.injEq, and_true]
    omega

/-! ## Context-assembly lemmas -/

theorem historyContents_append (l1 l2 : List Message) :
    historyContents (l1 ++ l2) = historyContents l1 ++ historyContents l2 := by
  induction l1 with
  | nil => rfl
  | cons m ms ih => simp [historyContents, ih, List.append_assoc]

theorem msgImgParts_eq_nil_of_bad {m : Message} {s : String}
    (himg : m.image_data = some s) (hbad : b64decode s.data = none) :
    msgImgParts m = [] := by
  simp only [msgImgParts, himg, hbad]
  split
  · split
    · rfl
    · rfl
  · rfl

theorem msgImgParts_eq_nil_of_short {m : Message} {s : String}
    (himg : m.image_data = some s) (hshort : s.length ≤ 100) :
    msgImgParts m = [] := by
  simp only [msgImgParts, himg]
  split
  · rw [if_neg (by omega)]
  · rfl

theorem historyContents_drop_attachment {m : Message}
    (hnil : msgImgParts m = []) (pre post : List Message) :
    historyContents (pre ++ m :: post) =
      historyContents pre ++ textOnlyContent m ++ historyContents post := by
  have hsplit : pre ++ m :: post = pre ++ [m] ++ post := by simp
  rw [hsplit, historyContents_append, historyContents_append]
  congr 1
  congr 1
  by_cases hc : m.content = ""
  · simp [historyContents, msgTextParts, hc, hnil, textOnlyContent]
  · simp [historyContents, msgTextParts, hc, hnil, textOnlyContent]

/-! ## Shape lemmas for the chat handler -/

theorem chat_success_shape (env : Env) (db : Db) (uid : String) (sid : Nat)
    (txt : String) (img : Option (Except String (List Nat))) (r : String)
    (hgen : env.genResult = .ok r) (hins : env.insertFails = false) :
    ∃ (sess : List Session) (calls : Nat),
      chat env db (some uid) sid txt img =
        ⟨.reply r,
         ⟨sess,
          db.messages ++
            [⟨db.nextMessageId, sid, "user", txt,
              (currentImageB64 img).isSome, currentImageB64 img⟩,
             ⟨db.nextMessageId + 1, sid, "bot", r, false, none⟩],
          db.profiles, db.nextMessageId + 2⟩,
         historyContents (recentWindow sid 5 db.messages) ++ currentContent txt img,
         calls, txt != ""⟩ := by
  obtain ⟨gen, ttl, ref, insf, rupf⟩ := env
  dsimp only at hgen hins
  subst hgen hins
  by_cases hw : (recentWindow sid 5 db.messages).length = 0
  · match htitle : ttl with
    | .ok t =>
      refine ⟨db.sessions.map
        (fun s => if s.id = sid then { s with title := (t.trim).replace "\"" "" } else s),
        2, ?_⟩
      simp [chat, hw]
    | .error e => exact ⟨db.sessions, 2, by simp [chat, hw]⟩
  · exact ⟨db.sessions, 1, by simp [chat, hw]⟩

theorem serverChat_rejects_empty (gen : Except String String) (inp : Option String)
    (h : inp.getD "" = "") :
    serverChat gen inp = ⟨.badRequest "No message provided", 0⟩ := by
  simp [serverChat, h]

/-! ## Claim theorems -/

/-- C1: the spec requires a turn on a session not owned by the caller to
fail with AccessDenied, with zero messages persisted and zero model calls.
The `chat` handler performs no ownership check at all: here the
authenticated caller `bob` submits to session 1, which the store records as
owned by `alice`, and the turn succeeds — the model is called once with
`alice`'s history as context, the reply is returned, and the user/bot
message pair is persisted into `alice`'s session. -/
theorem chat_missing_ownership_check :
    dbAlice.sessions = [⟨1, "alice", "T"⟩] ∧
    (chat envOk dbAlice (some "bob") 1 "probe" none).response = .reply "REPLY" ∧
    (chat envOk dbAlice (some "bob") 1 "probe" none).modelCalls = 1 ∧
    (chat envOk dbAlice (some "bob") 1 "probe" none).db.messages =
      dbAlice.messages ++
        [⟨3, 1, "user", "probe", false, none⟩, ⟨4, 1, "bot", "REPLY", false, none⟩] ∧
    (chat envOk dbAlice (some "bob") 1 "probe" none).request =
      [⟨"user", [.text "hello"]⟩, ⟨"model", [.text "hi there"]⟩,
       ⟨"user", [.text "probe"]⟩] := by
  decide

/-- C2: the spec requires a turn with neither text nor a valid image to be
rejected with EmptyInput before any model call and before any persistence.
The final `chat` variant has no such rejection: an empty form on a session
with history still makes one model call (with the history-only contents) and
persists two messages, the first with empty user text. (The earlier
text-only variant `serverChat` does reject an empty message.) -/
theorem chat_empty_input_not_rejected :
    (chat envOk dbAlice (some "alice") 1 "" none).response = .reply "REPLY" ∧
    (chat envOk dbAlice (some "alice") 1 "" none).modelCalls = 1 ∧
    (chat envOk dbAlice (some "alice") 1 "" none).request =
      [⟨"user", [.text "hello"]⟩, ⟨"model", [.text "hi there"]⟩] ∧
    (chat envOk dbAlice (some "alice") 1 "" none).db.messages =
      dbAlice.messages ++
        [⟨3, 1, "user", "", false, none⟩, ⟨4, 1, "bot", "REPLY", false, none⟩] := by
  decide

/-- C3 counterexample: the claim says a persistence failure after a
successful generation still returns the model's reply. Here generation
succeeded with `"REPLY"` but the insert raises, and the route's catch-all
turns the turn into a 500 — the reply is not returned. -/
theorem chat_store_failure_loses_reply_cex :
    (chat envInsertFails dbAlice (some "alice") 1 "probe" none).response =
      .serverError "db error" ∧
    (chat envInsertFails dbAlice (some "alice") 1 "probe" none).response ≠
      .reply "REPLY" := by
  decide

/-- C3 amended: if the persistence step fails after a successful model
generation, the turn aborts with the catch-all server error and the reply is
not returned to the caller; no partial persistence remains (the transaction
is never committed, so the store is unchanged). -/
theorem chat_store_failure_aborts_turn (env : Env) (db : Db) (uid : String)
    (sid : Nat) (txt : String) (img : Option (Except String (List Nat)))
    (r : String) (hgen : env.genResult = .ok r) (hins : env.insertFails = true) :
    (chat env db (some uid) sid txt img).response = .serverError "db error" ∧
    (chat env db (some uid) sid txt img).db = db := by
  obtain ⟨gen, ttl, ref, insf, rupf⟩ := env
  dsimp only at hgen hins
  subst hgen hins
  simp [chat]

/-- C3 amended, witness at a concrete input. -/
theorem chat_store_failure_aborts_turn_witness :
    envInsertFails.genResult = .ok "REPLY" ∧ envInsertFails.insertFails = true ∧
    ((chat envInsertFails dbAlice (some "alice") 1 "probe" none).response =
        .serverError "db error" ∧
      (chat envInsertFails dbAlice (some "alice") 1 "probe" none).db = dbAlice) :=
  ⟨rfl, rfl,
   chat_store_failure_aborts_turn envInsertFails dbAlice "alice" 1 "probe" none
     "REPLY" rfl rfl⟩

/-- C4 counterexample: the claim says each persisted message's sender is one
of `user` or `assistant`. On a successful turn the second appended message —
the model's reply — has sender `bot`, which is neither. -/
theorem chat_reply_sender_not_assistant_cex :
    ((chat envOk dbAlice (some "alice") 1 "probe" none).db.messages.getLast?).map
        Message.sender = some "bot" ∧
    ¬("bot" = "user" ∨ "bot" = "assistant") := by
  decide

/-- C4 amended: every successful turn appends exactly two messages as a
pair: the user's turn with sender `user` and the original raw input text
(never the profile-augmented text, which only enters the system
instruction), then the model's reply with sender `bot`. -/
theorem chat_persists_user_bot_pair (env : Env) (db : Db) (uid : String)
    (sid : Nat) (txt : String) (img : Option (Except String (List Nat)))
    (r : String) (hgen : env.genResult = .ok r) (hins : env.insertFails = false) :
    (chat env db (some uid) sid txt img).db.messages =
      db.messages ++
        [⟨db.nextMessageId, sid, "user", txt,
          (currentImageB64 img).isSome, currentImageB64 img⟩,
         ⟨db.nextMessageId + 1, sid, "bot", r, false, none⟩] ∧
    (chat env db (some uid) sid txt img).response = .reply r := by
  obtain ⟨sess, calls, hc⟩ := chat_success_shape env db uid sid txt img r hgen hins
  rw [hc]
  exact ⟨rfl, rfl⟩

/-- C4 amended, witness at a concrete input. -/
theorem chat_persists_user_bot_pair_witness :
    envOk.genResult = .ok "REPLY" ∧ envOk.insertFails = false ∧
    ((chat envOk dbAlice (some "alice") 1 "hi" none).db.messages =
        dbAlice.messages ++
          [⟨dbAlice.nextMessageId, 1, "user", "hi",
            (currentImageB64 none).isSome, currentImageB64 none⟩,
           ⟨dbAlice.nextMessageId + 1, 1, "bot", "REPLY", false, none⟩] ∧
      (chat envOk dbAlice (some "alice") 1 "hi" none).response = .reply "REPLY") :=
  ⟨rfl, rfl, chat_persists_user_bot_pair envOk dbAlice "alice" 1 "hi" none "REPLY" rfl rfl⟩

/-- C5: for every session and limit, the history window holds at most
`limit` messages and is strictly chronological (ascending id), given the
primary-key invariant that stored message ids are pairwise distinct; it is
computed by sorting descending, truncating, and reversing, exactly as the
definition of `recentWindow` states. -/
theorem recentWindow_bounded_chronological (sid limit : Nat)
    (msgs : List Message) (h : msgs.Pairwise (fun a b => a.id ≠ b.id)) :
    (recentWindow sid limit msgs).length ≤ limit ∧
    (recentWindow sid limit msgs).Pairwise (fun a b => a.id < b.id) := by
  constructor
  · rw [recentWindow, List.length_reverse]
    exact List.length_take_le _ _
  · rw [recentWindow, List.pairwise_reverse]
    have hfil : (msgs.filter (fun m => m.session_id = sid)).Pairwise
        (fun a b => a.id ≠ b.id) := h.sublist (List.filter_sublist _)
    have hne : (sortDesc (msgs.filter (fun m => m.session_id = sid))).Pairwise
        (fun a b => a.id ≠ b.id) :=
      ((perm_sortDesc _).pairwise_iff (fun hab => hab.symm)).mpr hfil
    have hdesc := pairwise_sortDesc (msgs.filter (fun m => m.session_id = sid))
    have hlt := (hdesc.and hne).sublist (List.take_sublist limit _)
    exact hlt.imp (fun hab => by omega)

/-- C5, witness at a concrete store. -/
theorem recentWindow_bounded_chronological_witness :
    dbAlice.messages.Pairwise (fun a b => a.id ≠ b.id) ∧
    ((recentWindow 1 5 dbAlice.messages).length ≤ 5 ∧
     (recentWindow 1 5 dbAlice.messages).Pairwise (fun a b => a.id < b.id)) :=
  ⟨by decide, recentWindow_bounded_chronological 1 5 dbAlice.messages (by decide)⟩

set_option linter.unusedVariables false in
/-- C6: decoding the durable textual encoding of any non-empty byte payload
returns the original bytes. -/
theorem b64_roundtrip (bs : List Nat) (hne : bs ≠ []) (hb : ∀ x ∈ bs, x < 256) :
    b64decode (b64encode bs) = some bs := by
  rw [b64decode]
  have hfil : (b64encode bs).filter (fun c => b64Alphabet.contains c || c == '=') =
      b64encode bs := List.filter_eq_self.mpr (b64encode_all_kept hb)
  simp only [hfil, b64encode_length_mod bs, if_pos]
  exact congrArg some (b64decodeRaw_b64encode hb)

/-- C6, witness on a concrete payload. -/
theorem b64_roundtrip_witness :
    ([72, 105, 33] : List Nat) ≠ [] ∧ (∀ x ∈ ([72, 105, 33] : List Nat), x < 256) ∧
    b64decode (b64encode [72, 105, 33]) = some [72, 105, 33] :=
  ⟨by decide, by decide, b64_roundtrip [72, 105, 33] (by decide) (by decide)⟩

/-- C7: when one history message's stored attachment is malformed (its
durable text fails to decode), context assembly still returns a request in
which only that attachment is dropped: the message keeps its text, and every
message before and after it contributes its text and attachments
unmodified. -/
theorem corrupt_attachment_contained (pre post : List Message) (m : Message)
    (s : String) (himg : m.image_data = some s)
    (hbad : b64decode s.data = none) :
    historyContents (pre ++ m :: post) =
      historyContents pre ++ textOnlyContent m ++ historyContents post :=
  historyContents_drop_attachment (msgImgParts_eq_nil_of_bad himg hbad) pre post

/-- C7, witness: a window with a good long attachment before and a text row
after the malformed one. -/
theorem corrupt_attachment_contained_witness :
    badImg.image_data = some "A" ∧ b64decode ("A" : String).data = none ∧
    historyContents ([histUser, goodImg] ++ badImg :: [histBot]) =
      historyContents [histUser, goodImg] ++ textOnlyContent badImg ++
        historyContents [histBot] :=
  ⟨rfl, by decide,
   corrupt_attachment_contained [histUser, goodImg] [histBot] badImg "A" rfl (by decide)⟩

/-- C8: a failure inside title generation or inside profile refinement is
fully absorbed: a failing title call still yields the reply to the caller,
and a failing refinement (model call or upsert) leaves the store unchanged
and raises nothing. -/
theorem title_and_refine_failures_absorbed :
    (∀ (env : Env) (db : Db) (uid : String) (sid : Nat) (txt : String)
        (img : Option (Except String (List Nat))) (r e : String),
        env.genResult = .ok r → env.insertFails = false →
        env.titleResult = .error e →
        (chat env db (some uid) sid txt img).response = .reply r) ∧
    (∀ (env : Env) (db : Db) (u m r e : String),
        env.refineResult = .error e ∨ env.refineUpsertFails = true →
        update_long_term_memory env db u m r = db) := by
  constructor
  · intro env db uid sid txt img r e hgen hins htitle
    obtain ⟨sess, calls, hc⟩ := chat_success_shape env db uid sid txt img r hgen hins
    rw [hc]
  · intro env db u m r e h
    rcases h with h | h
    · simp [update_long_term_memory, refineAttempt, h]
    · rcases henv : env.refineResult with e2 | t
      · simp [update_long_term_memory, refineAttempt, henv]
      · simp [update_long_term_memory, refineAttempt, henv, h]

/-- C8, witness at concrete inputs. -/
theorem title_and_refine_failures_absorbed_witness :
    (chat ⟨.ok "REPLY", .error "boom", .ok "d", false, false⟩ ⟨[aliceSession], [], [], 1⟩
        (some "alice") 1 "hi" none).response = .reply "REPLY" ∧
    update_long_term_memory ⟨.ok "R", .ok "T", .error "boom", false, false⟩
        dbAlice "alice" "m" "r" = dbAlice :=
  ⟨title_and_refine_failures_absorbed.1 ⟨.ok "REPLY", .error "boom", .ok "d", false, false⟩
      ⟨[aliceSession], [], [], 1⟩ "alice" 1 "hi" none "REPLY" "boom" rfl rfl rfl,
   title_and_refine_failures_absorbed.2 ⟨.ok "R", .ok "T", .error "boom", false, false⟩
      dbAlice "alice" "m" "r" "boom" (Or.inl rfl)⟩

/-- C9: on every successful turn, the background profile refinement is
launched exactly when the turn's user text is non-empty; a successful
image-only turn never triggers a dossier update. -/
theorem refine_launched_iff_text_nonempty (env : Env) (db : Db) (uid : String)
    (sid : Nat) (txt : String) (img : Option (Except String (List Nat)))
    (r : String) (hr : (chat env db (some uid) sid txt img).response = .reply r) :
    (chat env db (some uid) sid txt img).refineLaunched = true ↔ txt ≠ "" := by
  obtain ⟨gen, ttl, ref, insf, rupf⟩ := env
  cases gen with
  | error e => simp [chat] at hr
  | ok rep =>
    cases insf with
    | true => simp [chat] at hr
    | false =>
      obtain ⟨sess, calls, hc⟩ :=
        chat_success_shape ⟨.ok rep, ttl, ref, false, rupf⟩ db uid sid txt img rep rfl rfl
      rw [hc]
      simp [bne_iff_ne]

/-- C9, witness: a successful image-only turn does not launch refinement. -/
theorem refine_launched_iff_text_nonempty_witness :
    (chat envOk dbAlice (some "alice") 1 "hi" none).response = .reply "REPLY" ∧
    (((chat envOk dbAlice (some "alice") 1 "hi" none).refineLaunched = true) ↔
      ("hi" : String) ≠ "") :=
  ⟨by decide, refine_launched_iff_text_nonempty envOk dbAlice "alice" 1 "hi" none
      "REPLY" (by decide)⟩

set_option linter.unusedVariables false in
/-- C10: a stored history attachment whose durable text is 100 characters or
shorter is silently excluded from the rehydrated request — even when that
text decodes successfully to valid bytes — leaving only the message's
text. -/
theorem short_attachment_excluded (pre post : List Message) (m : Message)
    (s : String) (bs : List Nat) (himg : m.image_data = some s)
    (hshort : s.length ≤ 100) (hgood : b64decode s.data = some bs) :
    historyContents (pre ++ m :: post) =
      historyContents pre ++ textOnlyContent m ++ historyContents post :=
  historyContents_drop_attachment (msgImgParts_eq_nil_of_short himg hshort) pre post

/-- C10, witness: a 4-character attachment that decodes fine is dropped. -/
theorem short_attachment_excluded_witness :
    shortImg.image_data = some "QUJD" ∧ ("QUJD" : String).length ≤ 100 ∧
    b64decode ("QUJD" : String).data = some [65, 66, 67] ∧
    historyContents ([histUser] ++ shortImg :: [histBot]) =
      historyContents [histUser] ++ textOnlyContent shortImg ++
        historyContents [histBot] :=
  ⟨rfl, by decide, by decide,
   short_attachment_excluded [histUser] [histBot] shortImg "QUJD" [65, 66, 67]
     rfl (by decide) (by decide)⟩

end OsintChat
